import Mathlib

/-!
Verification of the jaygogafirebase client: a shallow embedding of its
data-synchronization and aggregation layer.

Sources embedded here:
- `src/src/App.tsx` (the `Dashboard` component: daily totals and the
  per-product summary; the type declarations for `Product`, `Customer`,
  `OrderItem`, `DailyOrder`).
- `src/src/context/AuthContext.tsx` (the auth-state listener, `login`,
  `register`, `handleAuthError`, the three `onSnapshot` mirror callbacks,
  the logged-out reset effect, and `deleteCustomer`).

Modelling conventions: JS numbers that hold money amounts, quantities and
timestamps are modelled as `Int`; Firestore `Timestamp` values (only ever
compared / subtracted) are modelled as `Int`; date strings (ISO
`YYYY-MM-DD`, compared with `localeCompare`, which is lexicographic on such
strings) are `String` with its lexicographic order; a possibly-missing
document field (`order.amount_paid || 0`) is an `Option Int`; JS
`Array.prototype.sort` with a total comparator is modelled by
`List.insertionSort` on the corresponding relation (the source claims only
ordering, not stability, so any correct comparison sort is a faithful
model); a Firestore `writeBatch` commit is atomic, so `commit` either
applies every queued deletion or leaves the store untouched.
-/

namespace JayGoga

/-- Unit of measure for a product, from the `Unit` union type in the source. -/
inductive MeasureUnit
  | ml
  | L
  | gm
  | kg
  | piece
deriving DecidableEq, Repr

/-- Order status, from the `'pending' | 'delivered'` union in the source. -/
inductive OrderStatus
  | pending
  | delivered
deriving DecidableEq, Repr

/-- The `User` interface of the source (`id`, `email`, `username`). -/
structure AppUser where
  id : String
  email : String
  username : String
deriving DecidableEq, Repr

/-- The `Product` interface of the source. -/
structure Product where
  id : String
  user_id : String
  name : String
  price : Int
  quantity : Int
  unit : MeasureUnit
  photo : Option String
  created_at : Int
deriving DecidableEq, Repr

/-- The `Customer` interface of the source. -/
structure Customer where
  id : String
  user_id : String
  name : String
  address : String
  contact_number : String
  created_at : Int
deriving DecidableEq, Repr

/-- The `OrderItem` interface of the source (one line item of a daily order). -/
structure OrderItem where
  product_id : String
  product_name : String
  quantity : Int
  unit : MeasureUnit
  price : Int
  total : Int
deriving DecidableEq, Repr

/-- The `DailyOrder` interface of the source. The field `amount_paid`
is `Option Int` because the Dashboard guards it with `order.amount_paid || 0`:
the document field can be absent in the remote store. -/
structure DailyOrder where
  id : String
  user_id : String
  customer_id : String
  customer_name : String
  date : String
  items : List OrderItem
  total_amount : Int
  amount_paid : Option Int
  status : OrderStatus
  created_at : Int
deriving DecidableEq, Repr

/-! Dashboard aggregation, from `src/src/App.tsx` lines 233-238:
`const todayOrders = orders.filter(order => order.date === today)` and the
two `reduce` calls producing the daily totals. -/

/-- Orders whose `date` field equals the fixed current date (`App.tsx` line 234). -/
def todayOrders (orders : List DailyOrder) (today : String) : List DailyOrder :=
  orders.filter (fun o => o.date = today)

/-- The reduce at `App.tsx` line 236: `sum + (order.amount_paid || 0)` starting from 0. -/
def totalCollectionToday (orders : List DailyOrder) (today : String) : Int :=
  (todayOrders orders today).foldl (fun sum o => sum + o.amount_paid.getD 0) 0

/-- The reduce at `App.tsx` line 237: `sum + order.total_amount` starting from 0. -/
def totalAmountToday (orders : List DailyOrder) (today : String) : Int :=
  (todayOrders orders today).foldl (fun sum o => sum + o.total_amount) 0

/-- The difference at `App.tsx` line 238. -/
def totalPendingToday (orders : List DailyOrder) (today : String) : Int :=
  totalAmountToday orders today - totalCollectionToday orders today

/-- Folding addition of a projection equals the initial value plus the sum of the map. -/
theorem foldl_add_sum {α : Type} (f : α → Int) :
    ∀ (l : List α) (a : Int), List.foldl (fun s x => s + f x) a l = a + (l.map f).sum
  | [], a => by simp
  | x :: xs, a => by
    rw [List.foldl_cons, foldl_add_sum f xs (a + f x), List.map_cons, List.sum_cons, add_assoc]

/-- First example order of the spec example (total 100, paid 80, dated 2024-01-01). -/
def exampleOrder1 : DailyOrder :=
  ⟨"o1", "u1", "c1", "Ramesh", "2024-01-01", [], 100, some 80, OrderStatus.pending, 1⟩

/-- Second example order of the spec example (total 50, paid 50, dated 2024-01-01). -/
def exampleOrder2 : DailyOrder :=
  ⟨"o2", "u1", "c2", "Suresh", "2024-01-01", [], 50, some 50, OrderStatus.pending, 2⟩

/-- C1: the dashboard aggregation yields totalAmountToday equal to the sum of
total_amount over exactly the orders dated today, totalCollectionToday equal to
the sum of amount_paid over those same orders, and totalPendingToday equal to
their difference; on the two example orders dated 2024-01-01 with totals 100 and
50 and payments 80 and 50 it yields 150, 130 and 20. -/
theorem dashboard_totals_correct (orders : List DailyOrder) (today : String) :
    totalAmountToday orders today
      = ((orders.filter (fun o => o.date = today)).map (fun o => o.total_amount)).sum
    ∧ totalCollectionToday orders today
      = ((orders.filter (fun o => o.date = today)).map (fun o => o.amount_paid.getD 0)).sum
    ∧ totalPendingToday orders today
      = totalAmountToday orders today - totalCollectionToday orders today
    ∧ totalAmountToday [exampleOrder1, exampleOrder2] "2024-01-01" = 150
    ∧ totalCollectionToday [exampleOrder1, exampleOrder2] "2024-01-01" = 130
    ∧ totalPendingToday [exampleOrder1, exampleOrder2] "2024-01-01" = 20 := by
  refine ⟨?_, ?_, rfl, by decide, by decide, by decide⟩
  · rw [totalAmountToday, todayOrders, foldl_add_sum (fun o : DailyOrder => o.total_amount), zero_add]
  · rw [totalCollectionToday, todayOrders, foldl_add_sum (fun o : DailyOrder => o.amount_paid.getD 0),
      zero_add]

/-- C9: an order dated today whose amount_paid field is missing contributes
exactly 0 to totalCollectionToday, while its total_amount is added to
totalAmountToday unguarded. -/
theorem missing_amount_paid_counts_zero (o : DailyOrder) (orders : List DailyOrder)
    (today : String) (hdate : o.date = today) (hpaid : o.amount_paid = none) :
    totalCollectionToday (o :: orders) today = totalCollectionToday orders today
    ∧ totalAmountToday (o :: orders) today = o.total_amount + totalAmountToday orders today := by
  constructor
  · rw [totalCollectionToday, totalCollectionToday, todayOrders, todayOrders,
      List.filter_cons_of_pos (by simp [hdate]), List.foldl_cons, hpaid]
    simp
  · rw [totalAmountToday, totalAmountToday, todayOrders, todayOrders,
      List.filter_cons_of_pos (by simp [hdate]), List.foldl_cons,
      foldl_add_sum (fun o : DailyOrder => o.total_amount), foldl_add_sum (fun o : DailyOrder => o.total_amount)]
    omega

/-- Order dated 2024-01-01 with no amount_paid field, for the C9 witness. -/
def noPaidOrder : DailyOrder :=
  ⟨"o3", "u1", "c1", "Ramesh", "2024-01-01", [], 40, none, OrderStatus.pending, 3⟩

/-- Witness for C9 at a concrete order with a missing amount_paid field. -/
theorem missing_amount_paid_counts_zero_witness :
    totalCollectionToday [noPaidOrder] "2024-01-01" = totalCollectionToday [] "2024-01-01"
    ∧ totalAmountToday [noPaidOrder] "2024-01-01"
        = noPaidOrder.total_amount + totalAmountToday [] "2024-01-01" :=
  missing_amount_paid_counts_zero noPaidOrder [] "2024-01-01" rfl rfl

/-! Data synchronization layer, from `src/src/context/AuthContext.tsx` lines
86-123: the effect clears the mirrors when no user is logged in, and otherwise
opens three owner-scoped queries whose snapshot callbacks replace the mirrors
in full, client-side sorted. -/

/-- Comparator of the products snapshot callback (`AuthContext.tsx` line 104):
ascending creation time. -/
def prodCreatedLe (a b : Product) : Prop := a.created_at ≤ b.created_at

instance : DecidableRel prodCreatedLe :=
  fun a b => decidable_of_iff (a.created_at ≤ b.created_at) Iff.rfl

instance : IsTrans Product prodCreatedLe := ⟨fun _ _ _ hab hbc => le_trans hab hbc⟩

instance : IsTotal Product prodCreatedLe := ⟨fun a b => Int.le_total a.created_at b.created_at⟩

/-- Comparator of the customers snapshot callback (`AuthContext.tsx` line 109):
ascending creation time. -/
def custCreatedLe (a b : Customer) : Prop := a.created_at ≤ b.created_at

instance : DecidableRel custCreatedLe :=
  fun a b => decidable_of_iff (a.created_at ≤ b.created_at) Iff.rfl

instance : IsTrans Customer custCreatedLe := ⟨fun _ _ _ hab hbc => le_trans hab hbc⟩

instance : IsTotal Customer custCreatedLe := ⟨fun a b => Int.le_total a.created_at b.created_at⟩

/-- Comparator of the orders snapshot callback (`AuthContext.tsx` line 114):
`b.date.localeCompare(a.date) || b.created_at - a.created_at`, that is,
descending date with ties broken by descending creation time. -/
def orderDisplayBefore (a b : DailyOrder) : Prop :=
  b.date < a.date ∨ (a.date = b.date ∧ b.created_at ≤ a.created_at)

instance : DecidableRel orderDisplayBefore :=
  fun a b =>
    decidable_of_iff (b.date < a.date ∨ (a.date = b.date ∧ b.created_at ≤ a.created_at)) Iff.rfl

instance : IsTrans DailyOrder orderDisplayBefore := by
  refine ⟨fun a b c hab hbc => ?_⟩
  rcases hab with h1 | ⟨h1, h1c⟩ <;> rcases hbc with h2 | ⟨h2, h2c⟩
  · exact Or.inl (lt_trans h2 h1)
  · exact Or.inl (h2 ▸ h1)
  · exact Or.inl (by rw [h1]; exact h2)
  · exact Or.inr ⟨h1.trans h2, le_trans h2c h1c⟩

instance : IsTotal DailyOrder orderDisplayBefore := by
  refine ⟨fun a b => ?_⟩
  rcases lt_trichotomy a.date b.date with h | h | h
  · exact Or.inr (Or.inl h)
  · rcases Int.le_total a.created_at b.created_at with hc | hc
    · exact Or.inr (Or.inr ⟨h.symm, hc⟩)
    · exact Or.inl (Or.inr ⟨h, hc⟩)
  · exact Or.inl (Or.inl h)

/-- The products snapshot callback (`AuthContext.tsx` lines 102-105): the
pushed result set, sorted ascending by creation time, replaces the mirror. -/
def productsSnapshotCallback (snapshot : List Product) : List Product :=
  snapshot.insertionSort prodCreatedLe

/-- The customers snapshot callback (`AuthContext.tsx` lines 107-110). -/
def customersSnapshotCallback (snapshot : List Customer) : List Customer :=
  snapshot.insertionSort custCreatedLe

/-- The orders snapshot callback (`AuthContext.tsx` lines 112-116). -/
def ordersSnapshotCallback (snapshot : List DailyOrder) : List DailyOrder :=
  snapshot.insertionSort orderDisplayBefore

/-- The remote document store: the three collections the client subscribes to. -/
structure RemoteStore where
  products : List Product
  customers : List Customer
  orders : List DailyOrder
deriving DecidableEq, Repr

/-- Local state produced by the data subscription effect: the three mirrors,
the loading flag, and how many live subscriptions the effect opened. -/
structure SyncState where
  products : List Product
  customers : List Customer
  orders : List DailyOrder
  dataLoading : Bool
  openSubscriptions : Nat
deriving DecidableEq, Repr

/-- The data subscription effect (`AuthContext.tsx` lines 86-123). With no
user it resets the three mirrors to empty, sets dataLoading to false and opens
no subscription (lines 87-93). With a user it opens the three owner-scoped
queries; each snapshot callback replaces its mirror with the sorted result
set, and the orders callback finally clears dataLoading (line 115). -/
def dataSubscriptionEffect (user : Option AppUser) (remote : RemoteStore) : SyncState :=
  match user with
  | none =>
    { products := [], customers := [], orders := []
      dataLoading := false, openSubscriptions := 0 }
  | some u =>
    { products := productsSnapshotCallback (remote.products.filter (fun p => p.user_id = u.id))
      customers := customersSnapshotCallback (remote.customers.filter (fun c => c.user_id = u.id))
      orders := ordersSnapshotCallback (remote.orders.filter (fun o => o.user_id = u.id))
      dataLoading := false
      openSubscriptions := 3 }

/-- C4: every snapshot pushed by the remote store replaces the corresponding
mirror in full (the callback result is a permutation of the snapshot) and is
client-side sorted: products and customers ascending by created_at, orders
descending by date with ties broken by descending created_at. -/
theorem snapshot_mirrors_sorted (sp : List Product) (sc : List Customer)
    (so : List DailyOrder) :
    (productsSnapshotCallback sp).Perm sp
    ∧ List.Sorted prodCreatedLe (productsSnapshotCallback sp)
    ∧ (customersSnapshotCallback sc).Perm sc
    ∧ List.Sorted custCreatedLe (customersSnapshotCallback sc)
    ∧ (ordersSnapshotCallback so).Perm so
    ∧ List.Sorted orderDisplayBefore (ordersSnapshotCallback so) :=
  ⟨List.perm_insertionSort prodCreatedLe sp, List.sorted_insertionSort prodCreatedLe sp,
   List.perm_insertionSort custCreatedLe sc, List.sorted_insertionSort custCreatedLe sc,
   List.perm_insertionSort orderDisplayBefore so, List.sorted_insertionSort orderDisplayBefore so⟩

/-- C8: whenever the active identity is null, the effect resets all three
mirrors to the empty list, sets dataLoading to false and opens no
subscription, whatever the remote store holds. -/
theorem logged_out_clears_mirrors (remote : RemoteStore) :
    dataSubscriptionEffect none remote =
      { products := [], customers := [], orders := []
        dataLoading := false, openSubscriptions := 0 } := rfl

/-! Customer deletion, from `src/src/context/AuthContext.tsx` lines 242-250:
a write batch collects one delete per order of the current user referencing
the customer, plus the customer document itself, and commits atomically. -/

/-- Reference to a document queued for deletion in the write batch. -/
inductive DocRef
  | customerRef (id : String)
  | orderRef (id : String)
deriving DecidableEq, Repr

/-- Application of one queued batch deletion to the remote store: deleting a
document removes every stored document of that collection with that id. -/
def applyDelete (s : RemoteStore) : DocRef → RemoteStore
  | DocRef.customerRef cid => { s with customers := s.customers.filter (fun c => c.id ≠ cid) }
  | DocRef.orderRef oid => { s with orders := s.orders.filter (fun o => o.id ≠ oid) }

/-- Commit of a write batch: atomic, so either every queued deletion is
applied in order or (on failure) the store is left unchanged. -/
def commitBatch (s : RemoteStore) (batch : List DocRef) (commitOk : Bool) : RemoteStore :=
  if commitOk then batch.foldl applyDelete s else s

/-- The deleteCustomer operation (`AuthContext.tsx` lines 242-250). Without an
authenticated user it throws before touching the store (`none`). Otherwise it
queries the orders of the current user whose customer_id matches, queues a
batch deletion for each of them and for the customer document, and commits
the batch. -/
def deleteCustomer (user : Option AppUser) (s : RemoteStore) (customerId : String)
    (commitOk : Bool) : Option RemoteStore :=
  match user with
  | none => none
  | some u =>
    let ordersSnapshot :=
      s.orders.filter (fun o => o.user_id = u.id ∧ o.customer_id = customerId)
    let batch :=
      ordersSnapshot.map (fun o => DocRef.orderRef o.id) ++ [DocRef.customerRef customerId]
    some (commitBatch s batch commitOk)

/-- Folding order-document deletions leaves products and customers unchanged
and keeps exactly the orders whose id is not among the deleted ids. -/
theorem foldl_orderRef_deletes :
    ∀ (ids : List String) (s : RemoteStore),
      ((ids.map DocRef.orderRef).foldl applyDelete s).products = s.products
      ∧ ((ids.map DocRef.orderRef).foldl applyDelete s).customers = s.customers
      ∧ ∀ o : DailyOrder,
          o ∈ ((ids.map DocRef.orderRef).foldl applyDelete s).orders
            ↔ (o ∈ s.orders ∧ ¬ o.id ∈ ids)
  | [], s => by simp
  | i :: ids, s => by
    have ih := foldl_orderRef_deletes ids (applyDelete s (DocRef.orderRef i))
    refine ⟨ih.1, ih.2.1, fun o => ?_⟩
    rw [List.map_cons, List.foldl_cons, ih.2.2 o]
    simp only [applyDelete, List.mem_filter, List.mem_cons, decide_not, Bool.not_eq_eq_eq_not,
      Bool.not_true, decide_eq_false_iff_not]
    constructor
    · rintro ⟨⟨ho, hne⟩, hnotin⟩
      exact ⟨ho, by simp [hne, hnotin]⟩
    · rintro ⟨ho, hnot⟩
      simp only [not_or] at hnot
      exact ⟨⟨ho, hnot.1⟩, hnot.2⟩

/-- C2: with an authenticated identity, deleteCustomer commits all-or-nothing.
On a failed commit the store is returned unchanged; on a successful commit the
resulting store keeps the products, keeps exactly the customers whose id
differs from the deleted one, and keeps exactly the orders that do not match
both the current identity and the deleted customer id (assuming the remote
collection holds distinct document ids, as Firestore guarantees). -/
theorem deleteCustomer_atomic (u : AppUser) (s : RemoteStore) (customerId : String)
    (hids : (s.orders.map (fun o => o.id)).Nodup) :
    deleteCustomer (some u) s customerId false = some s
    ∧ ∃ t : RemoteStore,
        deleteCustomer (some u) s customerId true = some t
        ∧ t.products = s.products
        ∧ (∀ c : Customer, c ∈ t.customers ↔ (c ∈ s.customers ∧ c.id ≠ customerId))
        ∧ ∀ o : DailyOrder,
            o ∈ t.orders ↔ (o ∈ s.orders ∧ ¬ (o.user_id = u.id ∧ o.customer_id = customerId)) := by
  constructor
  · simp [deleteCustomer, commitBatch]
  set ordersSnapshot :=
    s.orders.filter (fun o => o.user_id = u.id ∧ o.customer_id = customerId) with hsnap
  set ids := ordersSnapshot.map (fun o => o.id) with hidsdef
  have hbatch :
      deleteCustomer (some u) s customerId true
        = some (applyDelete ((ids.map DocRef.orderRef).foldl applyDelete s)
            (DocRef.customerRef customerId)) := by
    simp [deleteCustomer, commitBatch, hsnap, hidsdef, List.map_map, List.foldl_append,
      Function.comp_def]
  refine ⟨applyDelete ((ids.map DocRef.orderRef).foldl applyDelete s)
    (DocRef.customerRef customerId), hbatch, ?_, ?_, ?_⟩
  · rw [applyDelete]
    exact (foldl_orderRef_deletes ids s).1
  · intro c
    rw [applyDelete]
    simp only [List.mem_filter, decide_not, Bool.not_eq_eq_eq_not, Bool.not_true,
      decide_eq_false_iff_not]
    rw [(foldl_orderRef_deletes ids s).2.1]
  · intro o
    rw [applyDelete]
    simp only [(foldl_orderRef_deletes ids s).2.2 o]
    have hmemids : o ∈ s.orders → (o.id ∈ ids ↔ (o.user_id = u.id ∧ o.customer_id = customerId)) := by
      intro ho
      constructor
      · intro hin
        rcases List.mem_map.1 hin with ⟨m, hm, hmid⟩
        rcases List.mem_filter.1 hm with ⟨hmo, hmp⟩
        have : m = o := List.inj_on_of_nodup_map hids hmo ho hmid
        subst this
        exact of_decide_eq_true hmp
      · intro hmatch
        exact List.mem_map.2 ⟨o, List.mem_filter.2 ⟨ho, decide_eq_true hmatch⟩, rfl⟩
    constructor
    · rintro ⟨ho, hnid⟩
      exact ⟨ho, fun hmatch => hnid ((hmemids ho).2 hmatch)⟩
    · rintro ⟨ho, hnomatch⟩
      exact ⟨ho, fun hin => hnomatch ((hmemids ho).1 hin)⟩

/-- Authenticated user for the C2 witness. -/
def exUser : AppUser := ⟨"u1", "u1@example.com", "u1"⟩

/-- Concrete remote store for the C2 witness: one customer and two orders, one
of which references the customer to be deleted. -/
def exStore : RemoteStore :=
  ⟨[],
   [⟨"c1", "u1", "Ramesh", "addr", "123", 1⟩],
   [⟨"o1", "u1", "c1", "Ramesh", "2024-01-01", [], 100, some 80, OrderStatus.pending, 1⟩,
    ⟨"o2", "u1", "c2", "Suresh", "2024-01-01", [], 50, some 50, OrderStatus.pending, 2⟩]⟩

/-- Witness for C2 at a concrete store: the order ids are distinct and a
failed commit leaves the store unchanged. -/
theorem deleteCustomer_atomic_witness :
    (exStore.orders.map (fun o => o.id)).Nodup
    ∧ deleteCustomer (some exUser) exStore "c1" false = some exStore :=
  ⟨by decide, (deleteCustomer_atomic exUser exStore "c1" (by decide)).1⟩

/-! Session manager, from `src/src/context/AuthContext.tsx`: the
onAuthStateChanged handler (lines 66-84), handleAuthError (lines 125-135),
login (lines 137-151) and register (lines 153-170). -/

/-- The provider-side authenticated identity (a Firebase `User`): uid, email
(possibly null) and the emailVerified flag. -/
structure FirebaseUser where
  uid : String
  email : Option String
  emailVerified : Bool
deriving DecidableEq, Repr

/-- A provider authentication error: its code and its message, where the
empty string models a missing or falsy `error.message`. -/
structure AuthError where
  code : String
  message : String
deriving DecidableEq, Repr

/-- The handleAuthError mapping (`AuthContext.tsx` lines 125-135). The default
branch is `error.message || generic`: the provider message when truthy, the
fixed generic string otherwise. -/
def handleAuthError (e : AuthError) : String :=
  if e.code = "auth/invalid-email" then "Invalid email format."
  else if e.code = "auth/user-not-found" ∨ e.code = "auth/wrong-password"
      ∨ e.code = "auth/invalid-credential" then "Invalid login credentials"
  else if e.code = "auth/email-already-in-use" then "An account with this email already exists."
  else if e.code = "auth/weak-password" then "Password should be at least 6 characters."
  else if e.message = "" then "An unknown error occurred."
  else e.message

/-- Error codes the handleAuthError switch recognizes. -/
def recognizedAuthCodes : List String :=
  ["auth/invalid-email", "auth/user-not-found", "auth/wrong-password",
   "auth/invalid-credential", "auth/email-already-in-use", "auth/weak-password"]

/-- Result value of a session-manager operation: the success flag and the
optional human-readable message. -/
structure AuthResult where
  success : Bool
  message : Option String
deriving DecidableEq, Repr

/-- Outcome of the provider sign-in call inside login: a credential whose user
is returned, or a thrown authentication error. -/
inductive SignInOutcome
  | ok (u : FirebaseUser)
  | err (e : AuthError)
deriving DecidableEq, Repr

/-- Observable effect of a login call: the returned result, and whether the
identity was signed back out. -/
structure LoginEffect where
  result : AuthResult
  signedOut : Bool
deriving DecidableEq, Repr

/-- The login operation (`AuthContext.tsx` lines 137-151): on a credential
whose user is unverified it signs the identity out and returns success false
with the fixed message; on a verified credential it returns success; on a
thrown error it returns the mapped message. -/
def login : SignInOutcome → LoginEffect
  | SignInOutcome.ok u =>
    if u.emailVerified then ⟨⟨true, none⟩, false⟩
    else ⟨⟨false, some "Email not confirmed"⟩, true⟩
  | SignInOutcome.err e => ⟨⟨false, some (handleAuthError e)⟩, false⟩

/-- The onAuthStateChanged handler (`AuthContext.tsx` lines 66-84): a missing
or unverified identity yields a null user; a verified identity yields the
exposed user, with the username read from the profiles document when it
exists and falling back to the email. -/
def onAuthChangedUser (firebaseUser : Option FirebaseUser)
    (profileUsername : String → Option String) : Option AppUser :=
  match firebaseUser with
  | none => none
  | some fu =>
    if fu.emailVerified then
      let username :=
        match profileUsername fu.uid with
        | some n => some n
        | none => fu.email
      some ⟨fu.uid, fu.email.getD "", username.getD ""⟩
    else none

/-- C3: an identity whose emailVerified flag is false is never exposed as a
logged-in session: the auth listener maps it to a null user, and login signs
it back out and returns success false with the message Email not confirmed. -/
theorem unverified_never_logged_in (fu : FirebaseUser)
    (profileUsername : String → Option String) (h : fu.emailVerified = false) :
    onAuthChangedUser (some fu) profileUsername = none
    ∧ login (SignInOutcome.ok fu) = ⟨⟨false, some "Email not confirmed"⟩, true⟩ := by
  constructor
  · simp [onAuthChangedUser, h]
  · simp [login, h]

/-- Unverified identity for the C3 witness. -/
def unverifiedUser : FirebaseUser := ⟨"u2", some "x@example.com", false⟩

/-- Witness for C3 at a concrete unverified identity. -/
theorem unverified_never_logged_in_witness :
    onAuthChangedUser (some unverifiedUser) (fun _ => none) = none
    ∧ login (SignInOutcome.ok unverifiedUser) = ⟨⟨false, some "Email not confirmed"⟩, true⟩ :=
  unverified_never_logged_in unverifiedUser (fun _ => none) rfl

/-- The profiles document register writes (`AuthContext.tsx` lines 158-162):
username, email and a creation timestamp. -/
structure ProfileRecord where
  username : String
  email : String
  created_at : Int
deriving DecidableEq, Repr

/-- Observable step of the register operation, in the order it is awaited. -/
inductive RegisterEvent
  | createAccount (email password : String)
  | sendVerification
  | createProfile (record : ProfileRecord)
  | signOutUser
deriving DecidableEq, Repr

/-- The register operation on its success path (`AuthContext.tsx` lines
153-170): it awaits createUserWithEmailAndPassword, then
sendEmailVerification, then setDoc of the profiles record, then signOut, and
returns success true. -/
def register (email username password : String) (now : Int) :
    List RegisterEvent × AuthResult :=
  ([RegisterEvent.createAccount email password,
    RegisterEvent.sendVerification,
    RegisterEvent.createProfile ⟨username, email, now⟩,
    RegisterEvent.signOutUser],
   ⟨true, none⟩)

/-- Counterexample to C6 as stated: on a concrete successful registration the
event trace is not account creation, then profile creation, then verification
message, then sign-out, because the code sends the verification message
before creating the profile record. -/
theorem register_event_order_cex :
    (register "a@example.com" "alice" "pw123456" 0).1 ≠
      [RegisterEvent.createAccount "a@example.com" "pw123456",
       RegisterEvent.createProfile ⟨"alice", "a@example.com", 0⟩,
       RegisterEvent.sendVerification,
       RegisterEvent.signOutUser] := by decide

/-- C6 amended: a successful register call performs, in this order, the
authentication account creation, the verification message, the profile record
creation (username, email, creation timestamp), and the sign-out, returning
success true. -/
theorem register_event_order (email username password : String) (now : Int) :
    register email username password now =
      ([RegisterEvent.createAccount email password,
        RegisterEvent.sendVerification,
        RegisterEvent.createProfile ⟨username, email, now⟩,
        RegisterEvent.signOutUser],
       ⟨true, none⟩) := rfl

/-- Counterexample to C7 as stated: an unrecognized error code with a
provider-supplied message surfaces that provider text, not the fixed generic
message. -/
theorem auth_error_fallback_cex :
    handleAuthError ⟨"auth/network-request-failed", "Network request failed"⟩
        = "Network request failed"
    ∧ "Network request failed" ≠ "An unknown error occurred." := by
  exact ⟨rfl, by decide⟩

/-- C7 amended: the four recognized code groups map to four fixed user-facing
strings, and every other error returns the provider-supplied message when it
is nonempty, falling back to the fixed generic message only when the provider
message is empty. -/
theorem auth_error_mapping (e : AuthError) :
    (e.code = "auth/invalid-email" → handleAuthError e = "Invalid email format.")
    ∧ ((e.code = "auth/user-not-found" ∨ e.code = "auth/wrong-password"
        ∨ e.code = "auth/invalid-credential") →
        handleAuthError e = "Invalid login credentials")
    ∧ (e.code = "auth/email-already-in-use" →
        handleAuthError e = "An account with this email already exists.")
    ∧ (e.code = "auth/weak-password" →
        handleAuthError e = "Password should be at least 6 characters.")
    ∧ (¬ e.code ∈ recognizedAuthCodes →
        handleAuthError e =
          if e.message = "" then "An unknown error occurred." else e.message) := by
  refine ⟨fun h => ?_, fun h => ?_, fun h => ?_, fun h => ?_, fun h => ?_⟩
  · simp [handleAuthError, h]
  · rcases h with h | h | h <;> simp [handleAuthError, h]
  · have h1 : e.code ≠ "auth/invalid-email" := by rw [h]; decide
    have h2 : e.code ≠ "auth/user-not-found" := by rw [h]; decide
    have h3 : e.code ≠ "auth/wrong-password" := by rw [h]; decide
    have h4 : e.code ≠ "auth/invalid-credential" := by rw [h]; decide
    simp [handleAuthError, h, h1, h2, h3, h4]
  · have h1 : e.code ≠ "auth/invalid-email" := by rw [h]; decide
    have h2 : e.code ≠ "auth/user-not-found" := by rw [h]; decide
    have h3 : e.code ≠ "auth/wrong-password" := by rw [h]; decide
    have h4 : e.code ≠ "auth/invalid-credential" := by rw [h]; decide
    have h5 : e.code ≠ "auth/email-already-in-use" := by rw [h]; decide
    simp [handleAuthError, h, h1, h2, h3, h4, h5]
  · simp only [recognizedAuthCodes, List.mem_cons, List.not_mem_nil, or_false, not_or] at h
    obtain ⟨h1, h2, h3, h4, h5, h6⟩ := h
    simp [handleAuthError, h1, h2, h3, h4, h5, h6]

/-- Witness for C7 amended at concrete errors: a recognized code gives its
fixed string, and an unrecognized code with a nonempty message gives that
message. -/
theorem auth_error_mapping_witness :
    handleAuthError ⟨"auth/invalid-email", ""⟩ = "Invalid email format."
    ∧ handleAuthError ⟨"auth/internal-error", "boom"⟩ =
        if ("boom" : String) = "" then "An unknown error occurred." else "boom" :=
  ⟨(auth_error_mapping ⟨"auth/invalid-email", ""⟩).1 rfl,
   (auth_error_mapping ⟨"auth/internal-error", "boom"⟩).2.2.2.2 (by decide)⟩

/-! Product summary of the Dashboard, from `src/src/App.tsx` lines 278-289:
a plain object tallies quantity per product name across the line items of
the orders dated today, and its entries are sorted descending by quantity. -/

/-- Record of one quantity into the tally object. A JS object with string
keys keeps insertion order, so the tally is an association list: an existing
key accumulates in place, a new key is appended at the end. -/
def bump : List (String × Int) → String → Int → List (String × Int)
  | [], name, q => [(name, q)]
  | (n, v) :: rest, name, q =>
    if n = name then (n, v + q) :: rest else (n, v) :: bump rest name q

/-- One step of the tally loop (`App.tsx` lines 282-285): the quantity of one
line item is added under its product name. -/
def tallyStep (acc : List (String × Int)) (it : OrderItem) : List (String × Int) :=
  bump acc it.product_name it.quantity

/-- The tally object after the nested forEach loops (`App.tsx` lines 279-287). -/
def productTally (orders : List DailyOrder) (today : String) : List (String × Int) :=
  (todayOrders orders today).foldl (fun acc o => o.items.foldl tallyStep acc) []

/-- Line items of the orders dated today, in order. -/
def todayItems (orders : List DailyOrder) (today : String) : List OrderItem :=
  ((todayOrders orders today).map (fun o => o.items)).flatten

/-- Comparator of the summary sort (`App.tsx` line 288):
`(a, b) => b[1].quantity - a[1].quantity`, that is, descending by quantity. -/
def qtyDescending (a b : String × Int) : Prop := b.2 ≤ a.2

instance : DecidableRel qtyDescending := fun a b => decidable_of_iff (b.2 ≤ a.2) Iff.rfl

instance : IsTrans (String × Int) qtyDescending := ⟨fun _ _ _ hab hbc => le_trans hbc hab⟩

instance : IsTotal (String × Int) qtyDescending := ⟨fun a b => Int.le_total b.2 a.2⟩

/-- The product summary (`App.tsx` lines 278-289): the tally entries sorted
descending by quantity. -/
def productSummary (orders : List DailyOrder) (today : String) : List (String × Int) :=
  (productTally orders today).insertionSort qtyDescending

/-- Sum of the quantity fields of the line items carrying a given product name. -/
def sumQty (name : String) : List OrderItem → Int
  | [] => 0
  | it :: rest => (if it.product_name = name then it.quantity else 0) + sumQty name rest

/-- Test whether some line item carries the given product name. -/
def hasName (name : String) (items : List OrderItem) : Bool :=
  items.any (fun it => it.product_name = name)

/-- First value stored under a key in an association list. -/
def findVal (name : String) : List (String × Int) → Option Int
  | [] => none
  | (n, v) :: rest => if n = name then some v else findVal name rest

/-- Lookup after a bump: the bumped key gains the quantity, others are untouched. -/
theorem findVal_bump :
    ∀ (acc : List (String × Int)) (n : String) (q : Int) (name : String),
      findVal name (bump acc n q) =
        if n = name then some ((findVal name acc).getD 0 + q) else findVal name acc
  | [], n, q, name => by
    by_cases h : n = name <;> simp [bump, findVal, h]
  | (m, v) :: rest, n, q, name => by
    by_cases hmn : m = n
    · subst hmn
      by_cases h : m = name <;> simp [bump, findVal, h]
    · by_cases hmname : m = name
      · subst hmname
        have hnm : n ≠ m := fun hn => hmn hn.symm
        simp [bump, findVal, hmn, hnm]
      · simp [bump, findVal, hmn, hmname, findVal_bump rest n q name]

/-- Keys after a bump: the bumped key is in, nothing else joins. -/
theorem mem_keys_bump :
    ∀ (acc : List (String × Int)) (n : String) (q : Int) (x : String),
      x ∈ (bump acc n q).map Prod.fst ↔ (x ∈ acc.map Prod.fst ∨ x = n)
  | [], n, q, x => by simp [bump]
  | (m, v) :: rest, n, q, x => by
    by_cases hmn : m = n
    · subst hmn
      simp [bump]
      tauto
    · simp [bump, hmn, mem_keys_bump rest n q x]
      tauto

/-- Bumping preserves distinctness of the tally keys. -/
theorem nodup_keys_bump :
    ∀ (acc : List (String × Int)) (n : String) (q : Int),
      (acc.map Prod.fst).Nodup → ((bump acc n q).map Prod.fst).Nodup
  | [], n, q, _ => by simp [bump]
  | (m, v) :: rest, n, q, h => by
    simp only [List.map_cons, List.nodup_cons] at h
    by_cases hmn : m = n
    · subst hmn
      simpa [bump] using h
    · simp only [bump, if_neg hmn, List.map_cons, List.nodup_cons, mem_keys_bump rest n q m]
      exact ⟨by simp [h.1, hmn], nodup_keys_bump rest n q h.2⟩

/-- Invariant of the tally loop: after folding a run of line items, the value
under a name is the prior value plus the summed quantities of the run, and a
name absent from both stays absent. -/
theorem findVal_foldl_tally :
    ∀ (items : List OrderItem) (acc : List (String × Int)) (name : String),
      findVal name (items.foldl tallyStep acc) =
        if (findVal name acc).isSome = true ∨ hasName name items = true
        then some ((findVal name acc).getD 0 + sumQty name items)
        else none
  | [], acc, name => by
    cases hv : findVal name acc <;> simp [hasName, sumQty, hv]
  | it :: items, acc, name => by
    rw [List.foldl_cons, findVal_foldl_tally items (tallyStep acc it) name]
    by_cases hpn : it.product_name = name
    · have hb : findVal name (tallyStep acc it)
          = some ((findVal name acc).getD 0 + it.quantity) := by
        rw [tallyStep, findVal_bump, if_pos hpn]
      have hh : hasName name (it :: items) = true := by simp [hasName, hpn]
      have hs : sumQty name (it :: items) = it.quantity + sumQty name items := by
        simp [sumQty, hpn]
      rw [hb, hh, hs]
      simp [add_assoc]
    · have hb : findVal name (tallyStep acc it) = findVal name acc := by
        rw [tallyStep, findVal_bump, if_neg hpn]
      have hh : hasName name (it :: items) = hasName name items := by simp [hasName, hpn]
      have hs : sumQty name (it :: items) = sumQty name items := by simp [sumQty, hpn]
      rw [hb, hh, hs]

/-- The tally keys are distinct after folding any run of line items. -/
theorem nodup_keys_foldl_tally :
    ∀ (items : List OrderItem) (acc : List (String × Int)),
      (acc.map Prod.fst).Nodup → (((items.foldl tallyStep acc).map Prod.fst)).Nodup
  | [], _, h => h
  | it :: items, acc, h =>
    nodup_keys_foldl_tally items (tallyStep acc it)
      (nodup_keys_bump acc it.product_name it.quantity h)

/-- Membership in an association list with distinct keys coincides with lookup. -/
theorem mem_iff_findVal :
    ∀ (s : List (String × Int)) (name : String) (v : Int),
      (s.map Prod.fst).Nodup → ((name, v) ∈ s ↔ findVal name s = some v)
  | [], name, v, _ => by simp [findVal]
  | (m, w) :: rest, name, v, h => by
    simp only [List.map_cons, List.nodup_cons] at h
    by_cases hm : m = name
    · subst hm
      constructor
      · intro hmem
        rcases List.mem_cons.1 hmem with heq | hmem2
        · rw [findVal, if_pos rfl]
          exact (congrArg some (congrArg Prod.snd heq)).symm
        · exact absurd (List.mem_map.2 ⟨(m, v), hmem2, rfl⟩) h.1
      · intro hf
        rw [findVal, if_pos rfl] at hf
        have hw : w = v := Option.some.inj hf
        subst hw
        exact List.mem_cons_self _ _
    · rw [findVal, if_neg hm, ← mem_iff_findVal rest name v h.2]
      constructor
      · intro hmem
        rcases List.mem_cons.1 hmem with heq | hmem2
        · exact absurd (congrArg Prod.fst heq) (fun hx => hm hx.symm)
        · exact hmem2
      · exact fun hmem2 => List.mem_cons.2 (Or.inr hmem2)

/-- The nested forEach over the orders dated today equals one fold over the
concatenated run of their line items. -/
theorem productTally_eq_flat :
    ∀ (os : List DailyOrder) (acc : List (String × Int)),
      os.foldl (fun acc o => o.items.foldl tallyStep acc) acc
        = ((os.map (fun o => o.items)).flatten).foldl tallyStep acc
  | [], acc => rfl
  | o :: os, acc => by
    rw [List.foldl_cons, productTally_eq_flat os (o.items.foldl tallyStep acc),
      List.map_cons, List.flatten_cons, List.foldl_append]

/-- C5: the product summary maps each product name appearing in the line
items of the orders dated today, and only those, to the summed quantity of
all such line items; its keys are distinct and its entries are sorted in
descending order of the summed quantity. -/
theorem product_summary_correct (orders : List DailyOrder) (today : String) :
    ((productSummary orders today).map Prod.fst).Nodup
    ∧ (∀ (name : String) (v : Int),
        (name, v) ∈ productSummary orders today ↔
          (hasName name (todayItems orders today) = true
            ∧ v = sumQty name (todayItems orders today)))
    ∧ List.Sorted qtyDescending (productSummary orders today) := by
  have htally : productTally orders today = (todayItems orders today).foldl tallyStep [] := by
    rw [productTally, productTally_eq_flat, todayItems]
  have hkeys : ((productTally orders today).map Prod.fst).Nodup := by
    rw [htally]
    exact nodup_keys_foldl_tally (todayItems orders today) [] (by simp)
  have hperm : (productSummary orders today).Perm (productTally orders today) :=
    List.perm_insertionSort qtyDescending (productTally orders today)
  refine ⟨?_, ?_, List.sorted_insertionSort qtyDescending (productTally orders today)⟩
  · exact ((hperm.map Prod.fst).nodup_iff).2 hkeys
  · intro name v
    rw [hperm.mem_iff, mem_iff_findVal (productTally orders today) name v hkeys, htally,
      findVal_foldl_tally (todayItems orders today) [] name]
    cases hhas : hasName name (todayItems orders today) <;>
      simp [findVal, hhas, eq_comm]

/-- C10: the summary is keyed by product name, not product id. An order dated
today holding two line items with the same product name but different product
ids yields a single summary entry under that name carrying the merged
quantity. -/
theorem product_summary_keyed_by_name (o : DailyOrder) (today name : String)
    (i1 i2 : OrderItem) (hdate : o.date = today) (hitems : o.items = [i1, i2])
    (hn1 : i1.product_name = name) (hn2 : i2.product_name = name)
    (_hid : i1.product_id ≠ i2.product_id) :
    productSummary [o] today = [(name, i1.quantity + i2.quantity)] := by
  rw [productSummary, productTally, todayOrders,
    List.filter_cons_of_pos (by simp [hdate]), List.filter_nil, List.foldl_cons,
    List.foldl_nil, hitems]
  simp [tallyStep, bump, hn1, hn2, List.insertionSort, List.orderedInsert]

/-- Order for the C10 witness: two line items both named Milk referencing
different product documents. -/
def twoIdsOrder : DailyOrder :=
  ⟨"o9", "u1", "c1", "Ramesh", "2024-01-01",
   [⟨"p1", "Milk", 2, MeasureUnit.L, 30, 60⟩, ⟨"p2", "Milk", 3, MeasureUnit.L, 30, 90⟩],
   150, some 150, OrderStatus.delivered, 5⟩

/-- Witness for C10 at a concrete order with two same-named line items. -/
theorem product_summary_keyed_by_name_witness :
    productSummary [twoIdsOrder] "2024-01-01" = [("Milk", 2 + 3)] :=
  product_summary_keyed_by_name twoIdsOrder "2024-01-01" "Milk"
    ⟨"p1", "Milk", 2, MeasureUnit.L, 30, 60⟩ ⟨"p2", "Milk", 3, MeasureUnit.L, 30, 90⟩
    rfl rfl rfl rfl (by decide)

end JayGoga
